import Mathlib

/-!
Verification of the TeslaFi firmware poll-and-notify script (`src/main.py`).

The embedding models the script shallowly:
* a fetched page is the list of its table rows, each row the list of the
  trimmed-later text contents of its `td` cells (HTML parsing itself is
  abstracted away; the model starts from the cell texts);
* the persisted JSON file (`memory.json`) is an association list from keys to
  JSON values; string- and integer-valued fields are modelled (other JSON
  value shapes such as floats and nested objects are outside the model);
* `requests`/Telegram effects are modelled by an environment recording
  whether credentials are present and whether the outbound post succeeds;
* Python exceptions that the script catches are modelled with `Option`
  inside the corresponding definition; an uncaught exception makes the whole
  run return `none`.
-/

namespace TeslaFiWatch

/-- The wave threshold constant from the configuration section
(`WAVE_THRESHOLD = 5`). -/
def WAVE_THRESHOLD : Int := 5

/-- A JSON value stored in the memory file.  The script itself only ever
writes strings (`last_version`) and integers (`last_count`); other values a
pre-existing file might hold are not modelled. -/
inductive JVal where
  | str : String → JVal
  | int : Int → JVal
deriving DecidableEq, Repr

/-- The parsed content of the memory file: an association list with the keys
of the JSON object, in insertion order (Python dicts preserve insertion
order). -/
abbrev Memory := List (String × JVal)

/-- `m.get(k)` on a Python dict without the default: `some v` if the key is
present (keys of a dict are unique, so the first hit is the hit). -/
def dictGet : Memory → String → Option JVal
  | [], _ => none
  | p :: t, k => if p.1 = k then some p.2 else dictGet t k

/-- `m[k] = v` on a Python dict: replace the value in place if the key is
present (keeping its position in insertion order), append the new binding at
the end otherwise. -/
def dictSet : Memory → String → JVal → Memory
  | [], k, v => [(k, v)]
  | p :: t, k, v => if p.1 = k then (k, v) :: t else p :: dictSet t k v

/-- `load_memory`: parse the file if it exists, else return the empty dict.
The argument is the file's parsed content, or `none` when no file exists. -/
def load_memory (file : Option Memory) : Memory :=
  file.getD []

/-- Digit run to its decimal value (`'0'` is code point 48). -/
def decDigitsVal (l : List Char) : Nat :=
  l.foldl (fun a c => a * 10 + (c.toNat - 48)) 0

/-- Python `str.strip()` restricted to ASCII whitespace: drop whitespace
from both ends (modelled on the character list so that it computes by
reduction). -/
def pyStrip (s : String) : String :=
  ⟨((s.data.dropWhile Char.isWhitespace).reverse.dropWhile Char.isWhitespace).reverse⟩

/-- Python `str.isdigit()` restricted to ASCII: non-empty, all characters
decimal digits. -/
def pyIsDigit (s : String) : Bool :=
  !s.data.isEmpty && s.data.all Char.isDigit

/-- Python `s.replace(",", "")`: drop every comma. -/
def stripCommas (s : String) : String :=
  ⟨s.data.filter (fun c => c ≠ ',')⟩

/-- Python `int(s)` on a string: optional surrounding whitespace, optional
sign, then a non-empty digit run; `none` models a raised `ValueError`.
(Underscore digit grouping and non-ASCII digits are outside the model.) -/
def pyIntParse (s : String) : Option Int :=
  match (pyStrip s).data with
  | '-' :: rest =>
      if !rest.isEmpty && rest.all Char.isDigit then
        some (-(decDigitsVal rest : Int))
      else none
  | '+' :: rest =>
      if !rest.isEmpty && rest.all Char.isDigit then
        some ((decDigitsVal rest : Int))
      else none
  | l =>
      if !l.isEmpty && l.all Char.isDigit then
        some ((decDigitsVal l : Int))
      else none

/-- `int(cols[1].get_text().strip().replace(",", "") or 0)`: an empty string
is falsy, so the operand becomes the integer `0`; otherwise Python `int`
parses the cleaned text (`none` models the `ValueError`). -/
def installedParse (cell : String) : Option Int :=
  let s1 := stripCommas (pyStrip cell)
  if s1.data.isEmpty then some 0 else pyIntParse s1

/-- The body of the `try` block computing `current_count` from the accepted
row's cells: `none` models any exception inside the block (an out-of-range
column index or a failing `int` conversion). -/
def parseCountAux (cols : List String) : Option Int := do
  let c1 ← cols.get? 1
  let installed ← installedParse c1
  let c3 ← cols.get? 3
  let pending_text := stripCommas (pyStrip c3)
  let pending : Int := if pyIsDigit pending_text then (decDigitsVal pending_text.data : Int) else 0
  pure (installed + pending)

/-- `current_count` for the accepted row: the `try` block's value, with the
`except` handler turning any exception into `0`. -/
def parseCount (cols : List String) : Int :=
  (parseCountAux cols).getD 0

/-- The version predicate on a trimmed first-cell text:
`text.startswith("20") and "." in text and len(text) < 25`
(character-list model of the three Python string operations). -/
def validVersion (text : String) : Bool :=
  List.isPrefixOf "20".data text.data && text.data.contains '.' && text.data.length < 25

/-- A fetched page, as the list of its table rows; each row is the list of
the text contents of its `td` cells. -/
abbrev Page := List (List String)

/-- The row-scanning loop: skip rows without cells, accept the first row
whose trimmed first-cell text satisfies the version predicate, and return
its version together with `current_count`; `none` when no row matches
(`latest_version` stays `None`). -/
def findLatestRow : Page → Option (String × Int)
  | [] => none
  | row :: rest =>
      match row with
      | [] => findLatestRow rest
      | c0 :: _ =>
          let text := pyStrip c0
          if validVersion text then some (text, parseCount row)
          else findLatestRow rest

/-- The effectful surroundings of a run: the two secrets read from the
environment (`none` for an unset variable) and whether the outbound
notification post succeeds. -/
structure Env where
  bot_token : Option String
  chat_id : Option String
  postOk : Bool
deriving DecidableEq, Repr

/-- Python truthiness of an optional string: `None` and `""` are falsy. -/
def truthy : Option String → Bool
  | none => false
  | some s => !s.data.isEmpty

/-- The outcome of one `send_telegram` call.  The function has no failure
alternative: a missing credential returns after logging, and the `try`
around `requests.post` swallows any transport exception. -/
inductive SendResult where
  | skippedNoCreds : SendResult
  | posted : SendResult
  | transportError : SendResult
deriving DecidableEq, Repr

/-- `send_telegram`: skip when either credential is falsy, otherwise post
the message and swallow any transport failure.  The outcome does not depend
on the message text, mirroring that the Python function returns `None` on
every path. -/
def send_telegram (env : Env) (message : String) : SendResult :=
  if !truthy env.bot_token || !truthy env.chat_id then .skippedNoCreds
  else if env.postOk then .posted
  else .transportError

/-- A notification composed by the decision tree, with the data interpolated
into its message. -/
inductive Notification where
  | newBuild : String → Int → Notification
  | wave : String → Int → Notification
deriving DecidableEq, Repr

/-- The Markdown message text each notification interpolates
(the `msg` f-strings of scenarios 1 and 2). -/
def messageText : Notification → String
  | .newBuild v c =>
      "🆕 **New Build** – `" ++ v ++ "`\n Initial Rollout to " ++ toString c ++
        " on [TeslaFi](https://www.teslafi.com/firmware.php?detail=" ++ v ++ ")"
  | .wave v d =>
      "A new wave of `" ++ v ++ "` is rolling out now.\nInitial Rollout Size: " ++ toString d

/-- What one run leaves behind: the memory file's content on disk after the
run, the notifications passed to `send_telegram` in order, and the outcome
of each of those calls. -/
structure RunResult where
  memory : Memory
  calls : List Notification
  sends : List SendResult
deriving DecidableEq, Repr

/-- `check_teslafi`.  `fetched` is the fetch result: `none` models a raised
connection error or bad HTTP status (the run returns before touching the
memory file).  When a version row is found the decision tree runs:
scenario 1 (version changed) notifies and saves version and count;
scenario 2 (same version, count grew by at least `WAVE_THRESHOLD`) notifies
and saves the count; otherwise the count is saved silently.  An overall
`none` models an uncaught exception: `last_count + WAVE_THRESHOLD` raises
`TypeError` when the stored `last_count` is a string. -/
def check_teslafi (env : Env) (fetched : Option Page) (disk : Memory) : Option RunResult :=
  match fetched with
  | none => some ⟨disk, [], []⟩
  | some page =>
      match findLatestRow page with
      | none => some ⟨disk, [], []⟩
      | some (latest_version, current_count) =>
          let memory := load_memory (some disk)
          let last_version : JVal := (dictGet memory "last_version").getD (.str "None")
          let last_count_v : JVal := (dictGet memory "last_count").getD (.int 0)
          if JVal.str latest_version ≠ last_version then
            let note := Notification.newBuild latest_version current_count
            let r := send_telegram env (messageText note)
            let memory := dictSet memory "last_version" (.str latest_version)
            let memory := dictSet memory "last_count" (.int current_count)
            some ⟨memory, [note], [r]⟩
          else
            match last_count_v with
            | .int last_count =>
                if current_count ≥ last_count + WAVE_THRESHOLD then
                  let diff := current_count - last_count
                  let note := Notification.wave latest_version diff
                  let r := send_telegram env (messageText note)
                  some ⟨dictSet memory "last_count" (.int current_count), [note], [r]⟩
                else
                  some ⟨dictSet memory "last_count" (.int current_count), [], []⟩
            | .str _ => none

/-! ## Helper lemmas -/

theorem dictGet_dictSet_self (m : Memory) (k : String) (v : JVal) :
    dictGet (dictSet m k v) k = some v := by
  induction m with
  | nil => simp [dictGet, dictSet]
  | cons p t ih =>
      by_cases h : p.1 = k
      · simp [dictGet, dictSet, h]
      · simp [dictGet, dictSet, h, ih]

theorem dictGet_dictSet_ne (m : Memory) {k k' : String} (v : JVal) (hne : k ≠ k') :
    dictGet (dictSet m k v) k' = dictGet m k' := by
  induction m with
  | nil => simp [dictGet, dictSet, hne]
  | cons p t ih =>
      by_cases h : p.1 = k
      · simp [dictGet, dictSet, h, hne, Ne.symm hne]
      · by_cases h' : p.1 = k'
        · simp [dictGet, dictSet, h, h', Ne.symm hne]
        · simp [dictGet, dictSet, h, h', ih]

theorem findLatestRow_valid {page : Page} {v : String} {c : Int}
    (h : findLatestRow page = some (v, c)) : validVersion v = true := by
  induction page with
  | nil => simp [findLatestRow] at h
  | cons row rest ih =>
      cases row with
      | nil => exact ih (by simpa [findLatestRow] using h)
      | cons c0 cs =>
          by_cases hv : validVersion (pyStrip c0)
          · simp [findLatestRow, hv] at h
            rw [← h.1]
            exact hv
          · exact ih (by simpa [findLatestRow, hv] using h)

theorem validVersion_ne_None {s : String} (h : validVersion s = true) : s ≠ "None" := by
  intro he
  rw [he] at h
  exact absurd h (by decide)

theorem check_teslafi_new_version (env : Env) {page : Page} {disk : Memory}
    {v : String} {c : Int}
    (hrow : findLatestRow page = some (v, c))
    (hver : (dictGet disk "last_version").getD (JVal.str "None") ≠ JVal.str v) :
    check_teslafi env (some page) disk =
      some ⟨dictSet (dictSet disk "last_version" (JVal.str v)) "last_count" (JVal.int c),
            [Notification.newBuild v c],
            [send_telegram env (messageText (Notification.newBuild v c))]⟩ := by
  simp only [check_teslafi, hrow, load_memory, Option.getD_some]
  rw [if_pos (Ne.symm hver)]

theorem check_teslafi_same_core (env : Env) {page : Page} {disk : Memory}
    {v : String} {c c0 : Int}
    (hrow : findLatestRow page = some (v, c))
    (hver : dictGet disk "last_version" = some (JVal.str v))
    (hcnt : (dictGet disk "last_count").getD (JVal.int 0) = JVal.int c0) :
    check_teslafi env (some page) disk =
      if c ≥ c0 + WAVE_THRESHOLD then
        some ⟨dictSet disk "last_count" (JVal.int c),
              [Notification.wave v (c - c0)],
              [send_telegram env (messageText (Notification.wave v (c - c0)))]⟩
      else
        some ⟨dictSet disk "last_count" (JVal.int c), [], []⟩ := by
  simp [check_teslafi, hrow, load_memory, hver, hcnt]

theorem check_teslafi_same_version (env : Env) {page : Page} {disk : Memory}
    {v : String} {c c0 : Int}
    (hrow : findLatestRow page = some (v, c))
    (hver : dictGet disk "last_version" = some (JVal.str v))
    (hcnt : dictGet disk "last_count" = some (JVal.int c0)) :
    check_teslafi env (some page) disk =
      if c ≥ c0 + WAVE_THRESHOLD then
        some ⟨dictSet disk "last_count" (JVal.int c),
              [Notification.wave v (c - c0)],
              [send_telegram env (messageText (Notification.wave v (c - c0)))]⟩
      else
        some ⟨dictSet disk "last_count" (JVal.int c), [], []⟩ :=
  check_teslafi_same_core env hrow hver (by rw [hcnt]; rfl)

theorem run_post (env : Env) {page : Page} {disk : Memory}
    {v : String} {c : Int} {res : RunResult}
    (hrow : findLatestRow page = some (v, c))
    (hrun : check_teslafi env (some page) disk = some res) :
    dictGet res.memory "last_version" = some (JVal.str v) ∧
    dictGet res.memory "last_count" = some (JVal.int c) ∧
    ∀ k, k ≠ "last_version" → k ≠ "last_count" → dictGet res.memory k = dictGet disk k := by
  have hvne : v ≠ "None" := validVersion_ne_None (findLatestRow_valid hrow)
  by_cases hver : (dictGet disk "last_version").getD (JVal.str "None") ≠ JVal.str v
  · rw [check_teslafi_new_version env hrow hver] at hrun
    have hres := Option.some.inj hrun
    subst hres
    refine ⟨?_, dictGet_dictSet_self .., ?_⟩
    · rw [dictGet_dictSet_ne _ _ (by decide), dictGet_dictSet_self]
    · intro k hk1 hk2
      rw [dictGet_dictSet_ne _ _ (Ne.symm hk2), dictGet_dictSet_ne _ _ (Ne.symm hk1)]
  · push_neg at hver
    have hlv : dictGet disk "last_version" = some (JVal.str v) := by
      cases hd : dictGet disk "last_version" with
      | none =>
          rw [hd] at hver
          simp at hver
          exact absurd hver.symm hvne
      | some jv =>
          rw [hd] at hver
          simp at hver
          rw [hver]
    have hc0 : ∃ c0, (dictGet disk "last_count").getD (JVal.int 0) = JVal.int c0 := by
      cases hlc : dictGet disk "last_count" with
      | none => exact ⟨0, rfl⟩
      | some jc =>
          cases jc with
          | int c0 => exact ⟨c0, rfl⟩
          | str s =>
              exfalso
              simp [check_teslafi, hrow, load_memory, hlv, hlc] at hrun
    obtain ⟨c0, hc0⟩ := hc0
    rw [check_teslafi_same_core env hrow hlv hc0] at hrun
    split at hrun <;>
    · have hres := Option.some.inj hrun
      subst hres
      refine ⟨?_, dictGet_dictSet_self .., ?_⟩
      · rw [dictGet_dictSet_ne _ _ (by decide)]
        exact hlv
      · intro k hk1 hk2
        rw [dictGet_dictSet_ne _ _ (Ne.symm hk2)]

/-! ## Concrete fixtures used by witnesses and counterexamples -/

/-- An environment with neither credential set. -/
def env0 : Env := ⟨none, none, true⟩

/-- A page whose first row carries version `2025.44.1` with installed
`1,000` and pending `6`, so the combined count is `1006`. -/
def page1 : Page := [["2025.44.1", "1,000", "56%", "6"]]

/-- A persisted file holding version `2025.44.1` with count `1000`. -/
def disk1 : Memory := [("last_version", JVal.str "2025.44.1"), ("last_count", JVal.int 1000)]

/-- A page whose first row carries version `2025.44.2` with count `2000`. -/
def page2 : Page := [["2025.44.2", "2,000", "56%", "0"]]

/-- A page reporting version `2025.1.1` with a combined count of only `3`. -/
def page3 : Page := [["2025.1.1", "3", "0%", "0"]]

/-- A persisted file holding version `2025.1.1` with count `10`. -/
def disk3 : Memory := [("last_version", JVal.str "2025.1.1"), ("last_count", JVal.int 10)]

/-- A page reporting version `2025.1.1` with count `16`. -/
def page3b : Page := [["2025.1.1", "16", "0%", "0"]]

/-- A page none of whose rows has a version-shaped first cell. -/
def page4 : Page := [["Model S", "1", "2%", "3"], []]

/-- A page reporting version `2025.44.2` with count `50`. -/
def page8 : Page := [["2025.44.2", "50", "5%", ""]]

/-- A page whose installed cell parses to the negative integer `-5`. -/
def page9 : Page := [["2025.1.1", "-5", "0%", "0"]]

/-- A persisted file holding one unrelated field. -/
def disk10 : Memory := [("foo", JVal.int 7)]

/-- A page reporting version `2025.1.1` with count `10`. -/
def page10 : Page := [["2025.1.1", "10", "50%", "0"]]

/-- The result of a first-ever run (empty persisted file, no credentials)
on `page1`. -/
def res1 : RunResult :=
  ⟨[("last_version", JVal.str "2025.44.1"), ("last_count", JVal.int 1006)],
   [Notification.newBuild "2025.44.1" 1006], [SendResult.skippedNoCreds]⟩

/-! ## Claims -/

/-- C1: in a run whose observed version equals the persisted `last_version`
and whose persisted `last_count` is `c0`, a wave notification with
`diff = c - c0` is sent exactly when `c ≥ c0 + 5` (boundary included), no
notification is sent when `c < c0 + 5`, and in both cases the persisted
`last_count` becomes `c` while `last_version` stays unchanged. -/
theorem claim1_same_version_policy (env : Env) {page : Page} {disk : Memory}
    {v : String} {c c0 : Int}
    (hrow : findLatestRow page = some (v, c))
    (hver : dictGet disk "last_version" = some (JVal.str v))
    (hcnt : dictGet disk "last_count" = some (JVal.int c0)) :
    ∃ res, check_teslafi env (some page) disk = some res ∧
      (c ≥ c0 + 5 → res.calls = [Notification.wave v (c - c0)]) ∧
      (c < c0 + 5 → res.calls = []) ∧
      dictGet res.memory "last_count" = some (JVal.int c) ∧
      dictGet res.memory "last_version" = some (JVal.str v) := by
  have h := check_teslafi_same_version env hrow hver hcnt
  simp only [WAVE_THRESHOLD] at h
  by_cases hge : c ≥ c0 + 5
  · rw [if_pos hge] at h
    refine ⟨_, h, fun _ => rfl, fun hlt => absurd hge (by omega), ?_, ?_⟩
    · exact dictGet_dictSet_self ..
    · rw [dictGet_dictSet_ne _ _ (by decide)]
      exact hver
  · rw [if_neg hge] at h
    refine ⟨_, h, fun hge2 => absurd hge2 hge, fun _ => rfl, ?_, ?_⟩
    · exact dictGet_dictSet_self ..
    · rw [dictGet_dictSet_ne _ _ (by decide)]
      exact hver

/-- Witness for C1 at the spec's own example: persisted
`("2025.44.1", 1000)`, observed `("2025.44.1", 1006)`. -/
theorem claim1_same_version_policy_witness :
    ∃ res, check_teslafi env0 (some page1) disk1 = some res ∧
      ((1006 : Int) ≥ 1000 + 5 → res.calls = [Notification.wave "2025.44.1" (1006 - 1000)]) ∧
      ((1006 : Int) < 1000 + 5 → res.calls = []) ∧
      dictGet res.memory "last_count" = some (JVal.int 1006) ∧
      dictGet res.memory "last_version" = some (JVal.str "2025.44.1") :=
  claim1_same_version_policy env0 (by decide) (by decide) (by decide)

/-- C2: when the observed version differs from the persisted `last_version`
(under the Python comparison, where the stored value may even be a
non-string), a new-build notification is sent unconditionally — no
hypothesis on the counts is needed, so the version change takes priority
over any wave condition — and the persisted state becomes the observed
`(version, count)`. -/
theorem claim2_new_version_priority (env : Env) {page : Page} {disk : Memory}
    {v : String} {c : Int}
    (hrow : findLatestRow page = some (v, c))
    (hver : (dictGet disk "last_version").getD (JVal.str "None") ≠ JVal.str v) :
    ∃ res, check_teslafi env (some page) disk = some res ∧
      res.calls = [Notification.newBuild v c] ∧
      dictGet res.memory "last_version" = some (JVal.str v) ∧
      dictGet res.memory "last_count" = some (JVal.int c) := by
  refine ⟨_, check_teslafi_new_version env hrow hver, rfl, ?_, dictGet_dictSet_self ..⟩
  rw [dictGet_dictSet_ne _ _ (by decide), dictGet_dictSet_self]

/-- Witness for C2 at an input where the wave condition would also hold
(`2000 ≥ 1000 + 5`), yet the new-build scenario fires. -/
theorem claim2_new_version_priority_witness :
    ∃ res, check_teslafi env0 (some page2) disk1 = some res ∧
      res.calls = [Notification.newBuild "2025.44.2" 2000] ∧
      dictGet res.memory "last_version" = some (JVal.str "2025.44.2") ∧
      dictGet res.memory "last_count" = some (JVal.int 2000) :=
  claim2_new_version_priority env0 (by decide) (by decide)

/-- C3 as stated is false: with persisted state `("2025.1.1", 10)` and a
same-version observation of count `3`, the no-significant-change branch
writes `last_count = 3`, which is strictly below the `10` read at the start
of the run. -/
theorem claim3_monotonic_counterexample :
    dictGet disk3 "last_version" = some (JVal.str "2025.1.1") ∧
    dictGet disk3 "last_count" = some (JVal.int 10) ∧
    findLatestRow page3 = some ("2025.1.1", 3) ∧
    (check_teslafi env0 (some page3) disk3).map (fun r => dictGet r.memory "last_count") =
      some (some (JVal.int 3)) ∧
    ¬ ((10 : Int) ≤ 3) := by decide

/-- C3 amended: in a same-version run the persisted `last_count` at the end
equals the observed count, so it is non-decreasing provided the observed
count is at least the previously persisted count. -/
theorem claim3_monotonic_amended (env : Env) {page : Page} {disk : Memory}
    {v : String} {c c0 : Int}
    (hrow : findLatestRow page = some (v, c))
    (hver : dictGet disk "last_version" = some (JVal.str v))
    (hcnt : dictGet disk "last_count" = some (JVal.int c0))
    (hmono : c0 ≤ c) :
    ∃ res, check_teslafi env (some page) disk = some res ∧
      dictGet res.memory "last_count" = some (JVal.int c) ∧ c0 ≤ c := by
  have h := check_teslafi_same_version env hrow hver hcnt
  by_cases hge : c ≥ c0 + WAVE_THRESHOLD
  · rw [if_pos hge] at h
    exact ⟨_, h, dictGet_dictSet_self .., hmono⟩
  · rw [if_neg hge] at h
    exact ⟨_, h, dictGet_dictSet_self .., hmono⟩

/-- Witness for the amended C3: persisted `("2025.1.1", 10)`, observed count
`16 ≥ 10`. -/
theorem claim3_monotonic_amended_witness :
    ∃ res, check_teslafi env0 (some page3b) disk3 = some res ∧
      dictGet res.memory "last_count" = some (JVal.int 16) ∧ (10 : Int) ≤ 16 :=
  claim3_monotonic_amended env0
    (show findLatestRow page3b = some ("2025.1.1", 16) by decide)
    (by decide) (by decide) (by decide)

/-- C4: a failed fetch, and likewise a page with no row satisfying the
version predicate, ends the run with the persisted file exactly as it was
and with no notification passed to the notifier. -/
theorem claim4_abort_paths (env : Env) (disk : Memory) {page : Page}
    (hnone : findLatestRow page = none) :
    check_teslafi env none disk = some ⟨disk, [], []⟩ ∧
    check_teslafi env (some page) disk = some ⟨disk, [], []⟩ :=
  ⟨rfl, by simp [check_teslafi, hnone]⟩

/-- Witness for C4 on a page whose rows have no version-shaped first cell. -/
theorem claim4_abort_paths_witness :
    check_teslafi env0 none disk1 = some ⟨disk1, [], []⟩ ∧
    check_teslafi env0 (some page4) disk1 = some ⟨disk1, [], []⟩ :=
  claim4_abort_paths env0 disk1 (by decide)

/-- C5: idempotence — whatever a run that reached the decision tree
persisted, a second run (under any notification environment) observing the
same page sends no notification: the persisted count then equals the
observed count and the wave threshold check fails. -/
theorem claim5_idempotent (env env2 : Env) {page : Page} {disk : Memory}
    {v : String} {c : Int} {res : RunResult}
    (hrow : findLatestRow page = some (v, c))
    (hrun : check_teslafi env (some page) disk = some res) :
    ∃ res2, check_teslafi env2 (some page) res.memory = some res2 ∧ res2.calls = [] := by
  obtain ⟨h1, h2, _⟩ := run_post env hrow hrun
  have h := check_teslafi_same_version env2 hrow h1 h2
  rw [if_neg (by simp only [WAVE_THRESHOLD]; omega)] at h
  exact ⟨_, h, rfl⟩

/-- Witness for C5: a first run on the empty file persists
`("2025.44.1", 1006)`; rerunning on the same page notifies nothing. -/
theorem claim5_idempotent_witness :
    ∃ res2, check_teslafi env0 (some page1) res1.memory = some res2 ∧ res2.calls = [] :=
  claim5_idempotent env0 env0
    (show findLatestRow page1 = some ("2025.44.1", 1006) by decide)
    (show check_teslafi env0 (some page1) [] = some res1 by decide)

/-- C6 as stated is false for a genuinely missing pending cell: on a row
with only three cells and installed count `100`, the out-of-range column
access raises inside the `try` block and the handler zeroes the whole
count, so the count is `0` rather than `installed + 0 = 100`; the row is
still accepted, so the run does continue past parsing. -/
theorem claim6_pending_default_counterexample :
    installedParse "100" = some 100 ∧
    (["2025.44.1", "100", "56%"] : List String).get? 3 = none ∧
    parseCount ["2025.44.1", "100", "56%"] = 0 ∧
    ((0 : Int) ≠ 100) ∧
    findLatestRow [["2025.44.1", "100", "56%"]] = some ("2025.44.1", 0) := by decide

/-- C6 amended: an empty or otherwise non-digit pending cell (a cell that is
present) defaults the pending value to 0, giving `count = installed + 0`; a
cell that is absent from the row instead trips the column-error fallback and
the whole count defaults to 0.  In either case the row is accepted, so the
run continues to the comparator instead of aborting. -/
theorem claim6_pending_default_amended {cols : List String} {s : String} {i : Int}
    (h1 : cols.get? 1 = some s) (hi : installedParse s = some i) :
    ((∃ p, cols.get? 3 = some p ∧ pyIsDigit (stripCommas (pyStrip p)) = false) →
      parseCount cols = i) ∧
    (cols.get? 3 = none → parseCount cols = 0) ∧
    (∀ c0 rest, cols = c0 :: rest → validVersion (pyStrip c0) = true →
      findLatestRow [cols] = some (pyStrip c0, parseCount cols)) := by
  rw [List.get?_eq_getElem?] at h1
  refine ⟨?_, ?_, ?_⟩
  · rintro ⟨p, hp, hpd⟩
    rw [List.get?_eq_getElem?] at hp
    simp [parseCount, parseCountAux, h1, hi, hp, hpd]
  · intro hp
    rw [List.get?_eq_getElem?] at hp
    simp [parseCount, parseCountAux, h1, hi, hp]
  · rintro c0 rest rfl hv
    simp [findLatestRow, hv]

/-- Witness for the amended C6 on a row whose pending cell is the empty
string: the count is the installed value `1434`, and the row is accepted. -/
theorem claim6_pending_default_amended_witness :
    ((∃ p, (["2025.44.1", "1,434", "56%", ""] : List String).get? 3 = some p ∧
        pyIsDigit (stripCommas (pyStrip p)) = false) →
      parseCount ["2025.44.1", "1,434", "56%", ""] = 1434) ∧
    ((["2025.44.1", "1,434", "56%", ""] : List String).get? 3 = none →
      parseCount ["2025.44.1", "1,434", "56%", ""] = 0) ∧
    (∀ c0 rest, (["2025.44.1", "1,434", "56%", ""] : List String) = c0 :: rest →
      validVersion (pyStrip c0) = true →
      findLatestRow [["2025.44.1", "1,434", "56%", ""]] =
        some (pyStrip c0, parseCount ["2025.44.1", "1,434", "56%", ""])) :=
  claim6_pending_default_amended (by decide)
    (show installedParse "1,434" = some 1434 by decide)

/-- C7: the notification layer never influences whether or what the run
persists, nor which notifications it composes: over any two environments
(credentials present or missing, transport succeeding or failing) the run's
final memory and its notification list coincide, and `send_telegram` itself
returns one of its three outcomes on every input rather than raising. -/
theorem claim7_notifier_never_blocks (e1 e2 : Env) (fetched : Option Page) (disk : Memory) :
    (check_teslafi e1 fetched disk).map RunResult.memory =
      (check_teslafi e2 fetched disk).map RunResult.memory ∧
    (check_teslafi e1 fetched disk).map RunResult.calls =
      (check_teslafi e2 fetched disk).map RunResult.calls ∧
    ∀ msg, send_telegram e1 msg = SendResult.skippedNoCreds ∨
      send_telegram e1 msg = SendResult.posted ∨
      send_telegram e1 msg = SendResult.transportError := by
  refine ⟨?_, ?_, ?_⟩
  all_goals
    first
    | · intro msg
        unfold send_telegram
        split
        · exact Or.inl rfl
        · split
          · exact Or.inr (Or.inl rfl)
          · exact Or.inr (Or.inr rfl)
    | · cases fetched with
        | none => rfl
        | some page =>
            cases hfr : findLatestRow page with
            | none => simp [check_teslafi, hfr]
            | some vc =>
                obtain ⟨v, c⟩ := vc
                by_cases h : JVal.str v ≠ (dictGet disk "last_version").getD (JVal.str "None")
                · simp [check_teslafi, hfr, load_memory, h]
                · cases hlc : (dictGet disk "last_count").getD (JVal.int 0) with
                  | int c0 =>
                      by_cases h2 : c ≥ c0 + WAVE_THRESHOLD
                      · simp [check_teslafi, hfr, load_memory, h, hlc, h2]
                      · simp [check_teslafi, hfr, load_memory, h, hlc, h2]
                  | str s => simp [check_teslafi, hfr, load_memory, h, hlc]

/-- C8: with no persisted file, loading yields the empty record, whose
defaulted fields are `last_version = "None"` and `last_count = 0`; no string
satisfying the version predicate equals `"None"`, so any parsed observation
is classified as a new build. -/
theorem claim8_first_run (env : Env) {page : Page} {v : String} {c : Int}
    (hrow : findLatestRow page = some (v, c)) :
    load_memory none = [] ∧
    (dictGet (load_memory none) "last_version").getD (JVal.str "None") = JVal.str "None" ∧
    (dictGet (load_memory none) "last_count").getD (JVal.int 0) = JVal.int 0 ∧
    (∀ s, validVersion s = true → s ≠ "None") ∧
    ∃ res, check_teslafi env (some page) (load_memory none) = some res ∧
      res.calls = [Notification.newBuild v c] := by
  have hvne : v ≠ "None" := validVersion_ne_None (findLatestRow_valid hrow)
  refine ⟨rfl, rfl, rfl, fun s hs => validVersion_ne_None hs, ?_⟩
  have hver : (dictGet (load_memory none) "last_version").getD (JVal.str "None") ≠
      JVal.str v := by
    intro he
    exact hvne (JVal.str.inj he).symm
  exact ⟨_, check_teslafi_new_version env hrow hver, rfl⟩

/-- Witness for C8 on a first-ever run observing `("2025.44.2", 50)`. -/
theorem claim8_first_run_witness :
    load_memory none = [] ∧
    (dictGet (load_memory none) "last_version").getD (JVal.str "None") = JVal.str "None" ∧
    (dictGet (load_memory none) "last_count").getD (JVal.int 0) = JVal.int 0 ∧
    (∀ s, validVersion s = true → s ≠ "None") ∧
    ∃ res, check_teslafi env0 (some page8) (load_memory none) = some res ∧
      res.calls = [Notification.newBuild "2025.44.2" 50] :=
  claim8_first_run env0 (show findLatestRow page8 = some ("2025.44.2", 50) by decide)

/-- C9 as stated is false: Python `int` accepts a sign, so an installed cell
of `"-5"` parses to `-5` and (with pending `0`) the extracted count is the
negative integer `-5`. -/
theorem claim9_nonneg_counterexample :
    findLatestRow page9 = some ("2025.1.1", -5) ∧
    parseCount ["2025.1.1", "-5", "0%", "0"] = -5 ∧
    ¬ ((0 : Int) ≤ -5) := by decide

/-- C9 amended: the pending contribution is always non-negative, so the
extracted count is non-negative whenever the installed cell cannot parse to
a negative integer — in particular whenever it is empty or all digits after
trimming and comma-stripping, which is every well-formed page. -/
theorem claim9_nonneg_amended {cols : List String}
    (h : ∀ s i, cols.get? 1 = some s → installedParse s = some i → 0 ≤ i) :
    0 ≤ parseCount cols := by
  simp only [parseCount, parseCountAux, Option.bind_eq_bind, Option.pure_def]
  cases h1 : cols.get? 1 with
  | none => simp
  | some s =>
      simp only [Option.some_bind]
      cases hi : installedParse s with
      | none => simp
      | some i =>
          have hi0 : 0 ≤ i := h s i h1 hi
          simp only [Option.some_bind]
          cases h3 : cols.get? 3 with
          | none => simp
          | some p =>
              simp only [Option.some_bind, Option.getD_some]
              by_cases hd : pyIsDigit (stripCommas (pyStrip p))
              · simp only [hd, if_true]
                have hn : (0 : Int) ≤ (decDigitsVal (stripCommas (pyStrip p)).data : Int) :=
                  Int.ofNat_nonneg _
                omega
              · simp only [hd, if_false]
                omega

/-- Witness for the amended C9 on the row from the source's own comment:
installed `5,295`, pending `1,434`. -/
theorem claim9_nonneg_amended_witness :
    0 ≤ parseCount ["2025.44.1", "5,295", "56.1%", "1,434"] :=
  claim9_nonneg_amended (by
    intro s i hs hi
    have hs' : s = "5,295" := by
      simp only [List.get?] at hs
      exact (Option.some.inj hs).symm
    subst hs'
    have : installedParse "5,295" = some 5295 := by decide
    rw [this] at hi
    have := Option.some.inj hi
    omega)

/-- C10 as stated is false: the script mutates the loaded record in place,
so a pre-existing unrelated field survives into the record written back —
here the run on a file `{"foo": 7}` writes a record still containing
`foo`, alongside the two expected fields. -/
theorem claim10_two_fields_counterexample :
    (check_teslafi env0 (some page10) disk10).map RunResult.memory =
      some [("foo", JVal.int 7), ("last_version", JVal.str "2025.1.1"),
            ("last_count", JVal.int 10)] ∧
    dictGet [("foo", JVal.int 7), ("last_version", JVal.str "2025.1.1"),
            ("last_count", JVal.int 10)] "foo" = some (JVal.int 7) ∧
    "foo" ≠ "last_version" ∧ "foo" ≠ "last_count" := by decide

/-- C10 amended: every record written back contains the fields
`last_version` and `last_count` (holding the observed version and count),
and every other field of the pre-existing file is preserved unchanged
rather than removed. -/
theorem claim10_two_fields_amended (env : Env) {page : Page} {disk : Memory}
    {v : String} {c : Int} {res : RunResult}
    (hrow : findLatestRow page = some (v, c))
    (hrun : check_teslafi env (some page) disk = some res) :
    dictGet res.memory "last_version" = some (JVal.str v) ∧
    dictGet res.memory "last_count" = some (JVal.int c) ∧
    ∀ k, k ≠ "last_version" → k ≠ "last_count" → dictGet res.memory k = dictGet disk k :=
  run_post env hrow hrun

/-- Witness for the amended C10 on the run over the file `{"foo": 7}`. -/
theorem claim10_two_fields_amended_witness :
    dictGet [("foo", JVal.int 7), ("last_version", JVal.str "2025.1.1"),
        ("last_count", JVal.int 10)] "last_version" = some (JVal.str "2025.1.1") ∧
    dictGet [("foo", JVal.int 7), ("last_version", JVal.str "2025.1.1"),
        ("last_count", JVal.int 10)] "last_count" = some (JVal.int 10) ∧
    ∀ k, k ≠ "last_version" → k ≠ "last_count" →
      dictGet [("foo", JVal.int 7), ("last_version", JVal.str "2025.1.1"),
        ("last_count", JVal.int 10)] k = dictGet disk10 k :=
  claim10_two_fields_amended env0
    (show findLatestRow page10 = some ("2025.1.1", 10) by decide)
    (show check_teslafi env0 (some page10) disk10 =
      some ⟨[("foo", JVal.int 7), ("last_version", JVal.str "2025.1.1"),
             ("last_count", JVal.int 10)],
            [Notification.newBuild "2025.1.1" 10], [SendResult.skippedNoCreds]⟩ by decide)

end TeslaFiWatch
